import Mathlib

/-!
Verification of the `uv` UTF-8 validator (micnic/uv).

The development shallowly embeds the final exported validator of
`src/index.js` (lines 1536-2076): the single-byte classifiers `aa` .. `hd`,
the compound sequence checks `ca` .. `aha`, the OR-reduction accelerators
`aao` / `abo`, the trailing-byte helper `vt` and the main scan loop of
`module.exports`, as well as the byte-by-byte table-driven DFA validator of
`src/unnamed/part_001` (lines 263-449).

JavaScript buffer reads `buffer[i]` yield `undefined` when `i` is out of
bounds; this is modelled by `Option Nat` where `none` plays the role of
`undefined`: every comparison `undefined < n`, `undefined > n`,
`undefined === n` is `false`, and bitwise operators coerce `undefined`
to `0` (`ToInt32`).  Buffer bytes are naturals `0..255`, so JavaScript's
32-bit bitwise operators agree with the operators on `Nat`.
-/

namespace UV

/-- JavaScript buffer read `buffer[i]`: `none` models `undefined`. -/
def bget (b : List Nat) (i : Nat) : Option Nat := b[i]?

/-- JavaScript bitwise OR `x | y`: `undefined` coerces to `0`, the result is
always a number. -/
def bor (x y : Option Nat) : Option Nat := some (x.getD 0 ||| y.getD 0)

/-- `const aa = (byte) => (byte < 0x80);` -/
def aa : Option Nat → Bool
| some v => decide (v < 0x80)
| none => false

/-- `const ab = (byte) => (byte > 0xC1 && (byte & 0xE0) === 0xC0);` -/
def ab : Option Nat → Bool
| some v => decide (0xC1 < v) && (v &&& 0xE0 == 0xC0)
| none => false

/-- `const ac = (byte) => (byte === 0xE0);` -/
def ac : Option Nat → Bool
| some v => v == 0xE0
| none => false

/-- `const ad = (byte) => ((byte & 0xF0) === 0xE0 && byte !== 0xE0 && byte !== 0xED);` -/
def ad : Option Nat → Bool
| some v => (v &&& 0xF0 == 0xE0) && !(v == 0xE0) && !(v == 0xED)
| none => false

/-- `const ae = (byte) => (byte === 0xED);` -/
def ae : Option Nat → Bool
| some v => v == 0xED
| none => false

/-- `const af = (byte) => (byte === 0xF0);` -/
def af : Option Nat → Bool
| some v => v == 0xF0
| none => false

/-- `const ag = (byte) => ((byte & 0xFC) === 0xF0 && (byte & 0x03) !== 0x00);` -/
def ag : Option Nat → Bool
| some v => (v &&& 0xFC == 0xF0) && !(v &&& 0x03 == 0x00)
| none => false

/-- `const ah = (byte) => (byte === 0xF4);` -/
def ah : Option Nat → Bool
| some v => v == 0xF4
| none => false

/-- `const ba = (byte) => ((byte & 0xC0) === 0x80);` -/
def ba : Option Nat → Bool
| some v => v &&& 0xC0 == 0x80
| none => false

/-- `const cb = (byte) => ((byte & 0xE0) === 0xA0);` -/
def cb : Option Nat → Bool
| some v => v &&& 0xE0 == 0xA0
| none => false

/-- `const db = ba;` -/
def db : Option Nat → Bool := ba

/-- `const eb = (byte) => ((byte & 0xE0) === 0x80);` -/
def eb : Option Nat → Bool
| some v => v &&& 0xE0 == 0x80
| none => false

/-- `const fd = (byte) => ((byte & 0xC0) === 0x80 && (byte & 0xF0) !== 0x80);` -/
def fd : Option Nat → Bool
| some v => (v &&& 0xC0 == 0x80) && !(v &&& 0xF0 == 0x80)
| none => false

/-- `const gd = ba;` -/
def gd : Option Nat → Bool := ba

/-- `const hd = (byte) => ((byte & 0xF0) === 0x80);` -/
def hd : Option Nat → Bool
| some v => v &&& 0xF0 == 0x80
| none => false

/-- `const ca = (b, i) => (cb(b[i]) && ba(b[i + 1]));` -/
def ca (b : List Nat) (i : Nat) : Bool := cb (bget b i) && ba (bget b (i + 1))

/-- `const da = (b, i) => (db(b[i]) && ba(b[i + 1]));` -/
def da (b : List Nat) (i : Nat) : Bool := db (bget b i) && ba (bget b (i + 1))

/-- `const ea = (b, i) => (eb(b[i]) && ba(b[i + 1]));` -/
def ea (b : List Nat) (i : Nat) : Bool := eb (bget b i) && ba (bget b (i + 1))

/-- `const fa = (b, i) => (fd(b[i]) && da(b, i + 1));` -/
def fa (b : List Nat) (i : Nat) : Bool := fd (bget b i) && da b (i + 1)

/-- `const ga = (b, i) => (gd(b[i]) && da(b, i + 1));` -/
def ga (b : List Nat) (i : Nat) : Bool := gd (bget b i) && da b (i + 1)

/-- `const ha = (b, i) => (hd(b[i]) && da(b, i + 1));` -/
def ha (b : List Nat) (i : Nat) : Bool := hd (bget b i) && da b (i + 1)

/-- `const aba = (b, i) => (ab(b[i]) && ba(b[i + 1]));` -/
def aba (b : List Nat) (i : Nat) : Bool := ab (bget b i) && ba (bget b (i + 1))

/-- `const aca = (b, i) => (ac(b[i]) && ca(b, i + 1));` -/
def aca (b : List Nat) (i : Nat) : Bool := ac (bget b i) && ca b (i + 1)

/-- `const ada = (b, i) => (ad(b[i]) && da(b, i + 1));` -/
def ada (b : List Nat) (i : Nat) : Bool := ad (bget b i) && da b (i + 1)

/-- `const aea = (b, i) => (ae(b[i]) && ea(b, i + 1));` -/
def aea (b : List Nat) (i : Nat) : Bool := ae (bget b i) && ea b (i + 1)

/-- `const afa = (b, i) => (af(b[i]) && fa(b, i + 1));` -/
def afa (b : List Nat) (i : Nat) : Bool := af (bget b i) && fa b (i + 1)

/-- `const aga = (b, i) => (ag(b[i]) && ga(b, i + 1));` -/
def aga (b : List Nat) (i : Nat) : Bool := ag (bget b i) && ga b (i + 1)

/-- `const aha = (b, i) => (ah(b[i]) && ha(b, i + 1));` -/
def aha (b : List Nat) (i : Nat) : Bool := ah (bget b i) && ha b (i + 1)

/-- `const aao = (b, i) => aa(b[i] | b[i + 1] | b[i + 2] | b[i + 3]);` -/
def aao (b : List Nat) (i : Nat) : Bool :=
aa (bor (bor (bor (bget b i) (bget b (i + 1))) (bget b (i + 2))) (bget b (i + 3)))

/-- `const abo = (b, i) => (ab(b[i] | b[i + 2]) && ba(b[i + 1] | b[i + 3]));` -/
def abo (b : List Nat) (i : Nat) : Bool :=
ab (bor (bget b i) (bget b (i + 2))) && ba (bor (bget b (i + 1)) (bget b (i + 3)))

/-- Generic embedding of the inner acceleration loops
`while (index < stop && q(index)) { index += k + 1; }`, returning the final
index.  The advance per iteration is `k + 1` so that it is positive by
construction (`k = 3` gives the 4-byte loops, `k = 2` the 3-byte loops). -/
def accelLoop (q : Nat → Bool) (k stop i : Nat) : Nat :=
if i < stop then
  (if q i then accelLoop q k stop (i + (k + 1)) else i)
else i
termination_by stop - i
decreasing_by omega

/-- `while (index < stop && aao(buffer, index)) { index += 4; }` -/
def aaoLoop (b : List Nat) (stop i : Nat) : Nat := accelLoop (aao b) 3 stop i

/-- `while (index < stop && abo(buffer, index)) { index += 4; }` -/
def aboLoop (b : List Nat) (stop i : Nat) : Nat := accelLoop (abo b) 3 stop i

/-- `while (index < stop && aca(buffer, index)) { index += 3; }` -/
def acaLoop (b : List Nat) (stop i : Nat) : Nat := accelLoop (aca b) 2 stop i

/-- `while (index < stop && ada(buffer, index)) { index += 3; }` -/
def adaLoop (b : List Nat) (stop i : Nat) : Nat := accelLoop (ada b) 2 stop i

/-- `while (index < stop && aea(buffer, index)) { index += 3; }` -/
def aeaLoop (b : List Nat) (stop i : Nat) : Nat := accelLoop (aea b) 2 stop i

/-- `while (index < stop && afa(buffer, index)) { index += 4; }` -/
def afaLoop (b : List Nat) (stop i : Nat) : Nat := accelLoop (afa b) 3 stop i

/-- `while (index < stop && aga(buffer, index)) { index += 4; }` -/
def agaLoop (b : List Nat) (stop i : Nat) : Nat := accelLoop (aga b) 3 stop i

/-- `while (index < stop && aha(buffer, index)) { index += 4; }` -/
def ahaLoop (b : List Nat) (stop i : Nat) : Nat := accelLoop (aha b) 3 stop i

/-- The trailing-byte helper `vt(buffer, index, length)` of `src/index.js`
(lines 1719-1776), translated if-branch by if-branch. -/
def vt (b : List Nat) (index len : Nat) : Bool :=
if len == 1 then
  aa (bget b index)
else if len == 2 then
  (if aa (bget b index) then aa (bget b (index + 1)) else aba b index)
else
  if aa (bget b index) then
    (if aa (bget b (index + 1)) then aa (bget b (index + 2)) else aba b (index + 1))
  else if ab (bget b index) then
    ba (bget b (index + 1)) && aa (bget b (index + 2))
  else if ac (bget b index) then
    ca b (index + 1)
  else if ad (bget b index) then
    da b (index + 1)
  else
    aea b index

/-- One iteration of the main scan loop of `module.exports`
(`src/index.js` lines 1792-2068), including the nested acceleration loops.
`none` models `return false`; `some j` is the index at which the outer
`while` resumes. -/
def step (b : List Nat) (stop i : Nat) : Option Nat :=
if aa (bget b i) then
  (if aa (bget b (i + 1)) then
    (if aa (bget b (i + 2)) then
      (if aa (bget b (i + 3)) then some (aaoLoop b stop (i + 4))
       else some (i + 3))
     else if ab (bget b (i + 2)) then
      (if ba (bget b (i + 3)) then some (i + 4) else none)
     else some (i + 2))
   else if ab (bget b (i + 1)) then
    (if ba (bget b (i + 2)) then
      (if aa (bget b (i + 3)) then some (i + 4) else some (i + 3))
     else none)
   else if ac (bget b (i + 1)) then
    (if ca b (i + 2) then some (i + 4) else none)
   else if ad (bget b (i + 1)) then
    (if da b (i + 2) then some (i + 4) else none)
   else if ae (bget b (i + 1)) then
    (if ea b (i + 2) then some (i + 4) else none)
   else some (i + 1))
else if ab (bget b i) then
  (if ba (bget b (i + 1)) then
    (if aa (bget b (i + 2)) then
      (if aa (bget b (i + 3)) then some (i + 4) else some (i + 3))
     else if ab (bget b (i + 2)) then
      (if ba (bget b (i + 3)) then some (aboLoop b stop (i + 4)) else none)
     else some (i + 2))
   else none)
else if ac (bget b i) then
  (if ca b (i + 1) then
    (if aa (bget b (i + 3)) then some (i + 4) else some (acaLoop b stop (i + 3)))
   else none)
else if ad (bget b i) then
  (if da b (i + 1) then
    (if aa (bget b (i + 3)) then some (i + 4) else some (adaLoop b stop (i + 3)))
   else none)
else if ae (bget b i) then
  (if ea b (i + 1) then
    (if aa (bget b (i + 3)) then some (i + 4) else some (aeaLoop b stop (i + 3)))
   else none)
else if af (bget b i) then
  (if fa b (i + 1) then some (afaLoop b stop (i + 4)) else none)
else if ag (bget b i) then
  (if ga b (i + 1) then some (agaLoop b stop (i + 4)) else none)
else if ah (bget b i) then
  (if ha b (i + 1) then some (ahaLoop b stop (i + 4)) else none)
else none

/-- The entry index strictly below the result of an acceleration loop. -/
theorem accelLoop_ge (q : Nat → Bool) (k stop : Nat) : ∀ i, i ≤ accelLoop q k stop i := by
  intro i
  have H : ∀ n i, stop - i ≤ n → i ≤ accelLoop q k stop i := by
    intro n
    induction n with
    | zero =>
      intro i hi
      rw [accelLoop]
      rw [if_neg (by omega)]
    | succ n ih =>
      intro i hi
      rw [accelLoop]
      by_cases h1 : i < stop
      · rw [if_pos h1]
        by_cases h2 : q i
        · rw [if_pos h2]
          have := ih (i + (k + 1)) (by omega)
          omega
        · rw [if_neg h2]
      · rw [if_neg h1]
  exact H (stop - i) i (Nat.le_refl _)

/-- An acceleration loop entered at or below `stop + k` exits at or below
`stop + k` (each iteration fires only when the index is below `stop`). -/
theorem accelLoop_le (q : Nat → Bool) (k stop : Nat) :
    ∀ i, i ≤ stop + k → accelLoop q k stop i ≤ stop + k := by
  have H : ∀ n i, stop - i ≤ n → i ≤ stop + k → accelLoop q k stop i ≤ stop + k := by
    intro n
    induction n with
    | zero =>
      intro i hi hle
      rw [accelLoop]
      rw [if_neg (by omega)]
      exact hle
    | succ n ih =>
      intro i hi hle
      rw [accelLoop]
      by_cases h1 : i < stop
      · rw [if_pos h1]
        by_cases h2 : q i
        · rw [if_pos h2]
          exact ih (i + (k + 1)) (by omega) (by omega)
        · rw [if_neg h2]
          exact hle
      · rw [if_neg h1]
        exact hle
  intro i hle
  exact H (stop - i) i (Nat.le_refl _) hle

/-- Two loop conditions that agree on `[i, stop)` drive the loop to the same
final index. -/
theorem accelLoop_congr (q1 q2 : Nat → Bool) (k stop : Nat) :
    ∀ i, (∀ m, i ≤ m → m < stop → q1 m = q2 m) →
    accelLoop q1 k stop i = accelLoop q2 k stop i := by
  have H : ∀ n i, stop - i ≤ n → (∀ m, i ≤ m → m < stop → q1 m = q2 m) →
      accelLoop q1 k stop i = accelLoop q2 k stop i := by
    intro n
    induction n with
    | zero =>
      intro i hi _
      conv_lhs => rw [accelLoop]
      conv_rhs => rw [accelLoop]
      rw [if_neg (by omega), if_neg (by omega)]
    | succ n ih =>
      intro i hi hag
      conv_lhs => rw [accelLoop]
      conv_rhs => rw [accelLoop]
      by_cases h1 : i < stop
      · rw [if_pos h1, if_pos h1]
        rw [hag i (Nat.le_refl _) h1]
        by_cases h2 : q2 i
        · rw [if_pos h2, if_pos h2]
          exact ih (i + (k + 1)) (by omega) (fun m hm1 hm2 => hag m (by omega) hm2)
        · rw [if_neg h2, if_neg h2]
      · rw [if_neg h1, if_neg h1]
  intro i hag
  exact H (stop - i) i (Nat.le_refl _) hag

/-- Every successful iteration of the main loop strictly advances the index. -/
theorem step_lt (b : List Nat) (stop i j : Nat) (h : step b stop i = some j) : i < j := by
  unfold step at h
  repeat' split at h
  all_goals simp only [Option.some.injEq, reduceCtorEq] at h
  all_goals first
  | exact absurd h (by simp)
  | (subst h; omega)
  | (subst h
     exact Nat.lt_of_lt_of_le (by omega) (accelLoop_ge _ _ _ _))

/-- A successful iteration started below `stop` resumes at or below `stop + 3`. -/
theorem step_le (b : List Nat) (stop i j : Nat) (hi : i < stop)
    (h : step b stop i = some j) : j ≤ stop + 3 := by
  unfold step at h
  repeat' split at h
  all_goals simp only [Option.some.injEq, reduceCtorEq] at h
  all_goals first
  | exact absurd h (by simp)
  | (subst h; omega)
  | (subst h
     exact Nat.le_trans (accelLoop_le _ _ _ _ (by omega)) (by omega))

/-- The main scan loop of `module.exports` (`src/index.js` lines 1785-2075):
`stop = end - 3`; while `index < stop` run one dispatch iteration (`step`),
afterwards hand the at most 3 remaining bytes to `vt`. -/
def scanGo (b : List Nat) (e i : Nat) : Bool :=
if h : i < e - 3 then
  match hs : step b (e - 3) i with
  | none => false
  | some j => scanGo b e j
else if i < e then vt b i (e - i)
else true
termination_by e - i
decreasing_by
  have := step_lt b (e - 3) i j hs
  omega

/-- `module.exports = (buffer, start = 0, end = buffer.length) => ...`
(`src/index.js` lines 1785-2076). -/
def validate (b : List Nat) (s e : Nat) : Bool := scanGo b e s

theorem scanGo_step (b : List Nat) (e i j : Nat) (h : i < e - 3)
    (hs : step b (e - 3) i = some j) : scanGo b e i = scanGo b e j := by
  rw [scanGo, dif_pos h]
  split
  · simp_all
  · rename_i j' heq
    rw [hs] at heq
    cases heq
    rfl

theorem scanGo_none (b : List Nat) (e i : Nat) (h : i < e - 3)
    (hs : step b (e - 3) i = none) : scanGo b e i = false := by
  rw [scanGo, dif_pos h]
  split
  · rfl
  · simp_all

theorem scanGo_tail (b : List Nat) (e i : Nat) (h1 : ¬ i < e - 3) (h2 : i < e) :
    scanGo b e i = vt b i (e - i) := by
  rw [scanGo, dif_neg h1, if_pos h2]

theorem scanGo_done (b : List Nat) (e i : Nat) (h1 : ¬ i < e - 3) (h2 : ¬ i < e) :
    scanGo b e i = true := by
  rw [scanGo, dif_neg h1, if_neg h2]

/-- Reads of `aao` stay in `[m, m + 3]`. -/
theorem aao_congr (b1 b2 : List Nat) (m : Nat)
    (h : ∀ j, m ≤ j → j ≤ m + 3 → bget b1 j = bget b2 j) : aao b1 m = aao b2 m := by
  simp only [aao]
  rw [h m (by omega) (by omega), h (m + 1) (by omega) (by omega),
    h (m + 2) (by omega) (by omega), h (m + 3) (by omega) (by omega)]

/-- Reads of `abo` stay in `[m, m + 3]`. -/
theorem abo_congr (b1 b2 : List Nat) (m : Nat)
    (h : ∀ j, m ≤ j → j ≤ m + 3 → bget b1 j = bget b2 j) : abo b1 m = abo b2 m := by
  simp only [abo]
  rw [h m (by omega) (by omega), h (m + 1) (by omega) (by omega),
    h (m + 2) (by omega) (by omega), h (m + 3) (by omega) (by omega)]

/-- Reads of `aca` stay in `[m, m + 3]`. -/
theorem aca_congr (b1 b2 : List Nat) (m : Nat)
    (h : ∀ j, m ≤ j → j ≤ m + 3 → bget b1 j = bget b2 j) : aca b1 m = aca b2 m := by
  simp only [aca, ca]
  rw [h m (by omega) (by omega), h (m + 1) (by omega) (by omega),
    h (m + 1 + 1) (by omega) (by omega)]

/-- Reads of `ada` stay in `[m, m + 3]`. -/
theorem ada_congr (b1 b2 : List Nat) (m : Nat)
    (h : ∀ j, m ≤ j → j ≤ m + 3 → bget b1 j = bget b2 j) : ada b1 m = ada b2 m := by
  simp only [ada, da]
  rw [h m (by omega) (by omega), h (m + 1) (by omega) (by omega),
    h (m + 1 + 1) (by omega) (by omega)]

/-- Reads of `aea` stay in `[m, m + 3]`. -/
theorem aea_congr (b1 b2 : List Nat) (m : Nat)
    (h : ∀ j, m ≤ j → j ≤ m + 3 → bget b1 j = bget b2 j) : aea b1 m = aea b2 m := by
  simp only [aea, ea]
  rw [h m (by omega) (by omega), h (m + 1) (by omega) (by omega),
    h (m + 1 + 1) (by omega) (by omega)]

/-- Reads of `afa` stay in `[m, m + 3]`. -/
theorem afa_congr (b1 b2 : List Nat) (m : Nat)
    (h : ∀ j, m ≤ j → j ≤ m + 3 → bget b1 j = bget b2 j) : afa b1 m = afa b2 m := by
  simp only [afa, fa, da]
  rw [h m (by omega) (by omega), h (m + 1) (by omega) (by omega),
    h (m + 1 + 1) (by omega) (by omega), h (m + 1 + 1 + 1) (by omega) (by omega)]

/-- Reads of `aga` stay in `[m, m + 3]`. -/
theorem aga_congr (b1 b2 : List Nat) (m : Nat)
    (h : ∀ j, m ≤ j → j ≤ m + 3 → bget b1 j = bget b2 j) : aga b1 m = aga b2 m := by
  simp only [aga, ga, da]
  rw [h m (by omega) (by omega), h (m + 1) (by omega) (by omega),
    h (m + 1 + 1) (by omega) (by omega), h (m + 1 + 1 + 1) (by omega) (by omega)]

/-- Reads of `aha` stay in `[m, m + 3]`. -/
theorem aha_congr (b1 b2 : List Nat) (m : Nat)
    (h : ∀ j, m ≤ j → j ≤ m + 3 → bget b1 j = bget b2 j) : aha b1 m = aha b2 m := by
  simp only [aha, ha, da]
  rw [h m (by omega) (by omega), h (m + 1) (by omega) (by omega),
    h (m + 1 + 1) (by omega) (by omega), h (m + 1 + 1 + 1) (by omega) (by omega)]

/-- One iteration of the main loop, started at `i < stop`, reads only bytes
at indices in `[i, stop + 3)`: two buffers that agree there drive the
iteration to the same outcome. -/
theorem step_congr (b1 b2 : List Nat) (stop i : Nat) (hi : i < stop)
    (hag : ∀ m, i ≤ m → m < stop + 3 → bget b1 m = bget b2 m) :
    step b1 stop i = step b2 stop i := by
  have haao : aaoLoop b1 stop (i + 4) = aaoLoop b2 stop (i + 4) := by
    simp only [aaoLoop]
    exact accelLoop_congr _ _ 3 stop (i + 4)
      (fun m hm1 hm2 => aao_congr b1 b2 m (fun j hj1 hj2 => hag j (by omega) (by omega)))
  have habo : aboLoop b1 stop (i + 4) = aboLoop b2 stop (i + 4) := by
    simp only [aboLoop]
    exact accelLoop_congr _ _ 3 stop (i + 4)
      (fun m hm1 hm2 => abo_congr b1 b2 m (fun j hj1 hj2 => hag j (by omega) (by omega)))
  have haca : acaLoop b1 stop (i + 3) = acaLoop b2 stop (i + 3) := by
    simp only [acaLoop]
    exact accelLoop_congr _ _ 2 stop (i + 3)
      (fun m hm1 hm2 => aca_congr b1 b2 m (fun j hj1 hj2 => hag j (by omega) (by omega)))
  have hada : adaLoop b1 stop (i + 3) = adaLoop b2 stop (i + 3) := by
    simp only [adaLoop]
    exact accelLoop_congr _ _ 2 stop (i + 3)
      (fun m hm1 hm2 => ada_congr b1 b2 m (fun j hj1 hj2 => hag j (by omega) (by omega)))
  have haea : aeaLoop b1 stop (i + 3) = aeaLoop b2 stop (i + 3) := by
    simp only [aeaLoop]
    exact accelLoop_congr _ _ 2 stop (i + 3)
      (fun m hm1 hm2 => aea_congr b1 b2 m (fun j hj1 hj2 => hag j (by omega) (by omega)))
  have hafa : afaLoop b1 stop (i + 4) = afaLoop b2 stop (i + 4) := by
    simp only [afaLoop]
    exact accelLoop_congr _ _ 3 stop (i + 4)
      (fun m hm1 hm2 => afa_congr b1 b2 m (fun j hj1 hj2 => hag j (by omega) (by omega)))
  have haga : agaLoop b1 stop (i + 4) = agaLoop b2 stop (i + 4) := by
    simp only [agaLoop]
    exact accelLoop_congr _ _ 3 stop (i + 4)
      (fun m hm1 hm2 => aga_congr b1 b2 m (fun j hj1 hj2 => hag j (by omega) (by omega)))
  have haha : ahaLoop b1 stop (i + 4) = ahaLoop b2 stop (i + 4) := by
    simp only [ahaLoop]
    exact accelLoop_congr _ _ 3 stop (i + 4)
      (fun m hm1 hm2 => aha_congr b1 b2 m (fun j hj1 hj2 => hag j (by omega) (by omega)))
  have e0 := hag i (by omega) (by omega)
  have e1 := hag (i + 1) (by omega) (by omega)
  have e2 := hag (i + 2) (by omega) (by omega)
  have e3 := hag (i + 3) (by omega) (by omega)
  have e21 := hag (i + 2 + 1) (by omega) (by omega)
  have e11 := hag (i + 1 + 1) (by omega) (by omega)
  have e111 := hag (i + 1 + 1 + 1) (by omega) (by omega)
  simp only [step, ca, da, ea, fa, ga, ha]
  simp only [e0, e1, e2, e3, e21, e11, e111, haao, habo, haca, hada, haea, hafa, haga, haha]

/-- The trailing-byte helper reads only the `len` bytes of the tail. -/
theorem vt_congr (b1 b2 : List Nat) (i len : Nat) (hlen1 : 1 ≤ len) (hlen2 : len ≤ 3)
    (hag : ∀ m, i ≤ m → m < i + len → bget b1 m = bget b2 m) :
    vt b1 i len = vt b2 i len := by
  interval_cases len
  · have e0 := hag i (by omega) (by omega)
    simp [vt, e0]
  · have e0 := hag i (by omega) (by omega)
    have e1 := hag (i + 1) (by omega) (by omega)
    simp [vt, aba, e0, e1]
  · have e0 := hag i (by omega) (by omega)
    have e1 := hag (i + 1) (by omega) (by omega)
    have e2 := hag (i + 2) (by omega) (by omega)
    have e11 := hag (i + 1 + 1) (by omega) (by omega)
    simp [vt, aba, ca, da, ea, aea, e0, e1, e2, e11]

/-- The scan loop from index `i` reads only bytes at indices in `[i, e)`:
two buffers that agree there validate identically. -/
theorem scanGo_congr (b1 b2 : List Nat) (e : Nat) :
    ∀ i, (∀ m, i ≤ m → m < e → bget b1 m = bget b2 m) →
    scanGo b1 e i = scanGo b2 e i := by
  have H : ∀ n i, e - i ≤ n → (∀ m, i ≤ m → m < e → bget b1 m = bget b2 m) →
      scanGo b1 e i = scanGo b2 e i := by
    intro n
    induction n with
    | zero =>
      intro i hi hag
      rw [scanGo_done b1 e i (by omega) (by omega), scanGo_done b2 e i (by omega) (by omega)]
    | succ n ih =>
      intro i hi hag
      by_cases h : i < e - 3
      · have hs : step b1 (e - 3) i = step b2 (e - 3) i :=
          step_congr b1 b2 (e - 3) i h (fun m hm1 hm2 => hag m hm1 (by omega))
        cases hstep : step b1 (e - 3) i with
        | none =>
          have hstep2 : step b2 (e - 3) i = none := by rw [← hs]; exact hstep
          rw [scanGo_none b1 e i h hstep, scanGo_none b2 e i h hstep2]
        | some j =>
          have hstep2 : step b2 (e - 3) i = some j := by rw [← hs]; exact hstep
          have hij := step_lt b1 (e - 3) i j hstep
          rw [scanGo_step b1 e i j h hstep, scanGo_step b2 e i j h hstep2]
          exact ih j (by omega) (fun m hm1 hm2 => hag m (by omega) hm2)
      · by_cases h2 : i < e
        · rw [scanGo_tail b1 e i h h2, scanGo_tail b2 e i h h2]
          exact vt_congr b1 b2 i (e - i) (by omega) (by omega)
            (fun m hm1 hm2 => hag m hm1 (by omega))
        · rw [scanGo_done b1 e i h h2, scanGo_done b2 e i h h2]
  intro i hag
  exact H (e - i) i (Nat.le_refl _) hag


/-- State constants of the DFA validator (`src/unnamed/part_001` lines 263-271):
`a = 0` initial and accepting, `b`..`h = 1..7` intermediate, `x = 8` invalid. -/
def stateSize : Nat := 256

/-- Row "state a" of the `states` table of `src/unnamed/part_001`. -/
def dfaRowA : List Nat := [
0, 0, 0, 0, 0, 0, 0, 0, 0, 0, 0, 0, 0, 0, 0, 0,
0, 0, 0, 0, 0, 0, 0, 0, 0, 0, 0, 0, 0, 0, 0, 0,
0, 0, 0, 0, 0, 0, 0, 0, 0, 0, 0, 0, 0, 0, 0, 0,
0, 0, 0, 0, 0, 0, 0, 0, 0, 0, 0, 0, 0, 0, 0, 0,
0, 0, 0, 0, 0, 0, 0, 0, 0, 0, 0, 0, 0, 0, 0, 0,
0, 0, 0, 0, 0, 0, 0, 0, 0, 0, 0, 0, 0, 0, 0, 0,
0, 0, 0, 0, 0, 0, 0, 0, 0, 0, 0, 0, 0, 0, 0, 0,
0, 0, 0, 0, 0, 0, 0, 0, 0, 0, 0, 0, 0, 0, 0, 0,
8, 8, 8, 8, 8, 8, 8, 8, 8, 8, 8, 8, 8, 8, 8, 8,
8, 8, 8, 8, 8, 8, 8, 8, 8, 8, 8, 8, 8, 8, 8, 8,
8, 8, 8, 8, 8, 8, 8, 8, 8, 8, 8, 8, 8, 8, 8, 8,
8, 8, 8, 8, 8, 8, 8, 8, 8, 8, 8, 8, 8, 8, 8, 8,
8, 8, 1, 1, 1, 1, 1, 1, 1, 1, 1, 1, 1, 1, 1, 1,
1, 1, 1, 1, 1, 1, 1, 1, 1, 1, 1, 1, 1, 1, 1, 1,
2, 3, 3, 3, 3, 3, 3, 3, 3, 3, 3, 3, 3, 4, 3, 3,
5, 6, 6, 6, 7, 8, 8, 8, 8, 8, 8, 8, 8, 8, 8, 8]

/-- Row "state b" of the `states` table of `src/unnamed/part_001`. -/
def dfaRowB : List Nat := [
8, 8, 8, 8, 8, 8, 8, 8, 8, 8, 8, 8, 8, 8, 8, 8,
8, 8, 8, 8, 8, 8, 8, 8, 8, 8, 8, 8, 8, 8, 8, 8,
8, 8, 8, 8, 8, 8, 8, 8, 8, 8, 8, 8, 8, 8, 8, 8,
8, 8, 8, 8, 8, 8, 8, 8, 8, 8, 8, 8, 8, 8, 8, 8,
8, 8, 8, 8, 8, 8, 8, 8, 8, 8, 8, 8, 8, 8, 8, 8,
8, 8, 8, 8, 8, 8, 8, 8, 8, 8, 8, 8, 8, 8, 8, 8,
8, 8, 8, 8, 8, 8, 8, 8, 8, 8, 8, 8, 8, 8, 8, 8,
8, 8, 8, 8, 8, 8, 8, 8, 8, 8, 8, 8, 8, 8, 8, 8,
0, 0, 0, 0, 0, 0, 0, 0, 0, 0, 0, 0, 0, 0, 0, 0,
0, 0, 0, 0, 0, 0, 0, 0, 0, 0, 0, 0, 0, 0, 0, 0,
0, 0, 0, 0, 0, 0, 0, 0, 0, 0, 0, 0, 0, 0, 0, 0,
0, 0, 0, 0, 0, 0, 0, 0, 0, 0, 0, 0, 0, 0, 0, 0,
8, 8, 8, 8, 8, 8, 8, 8, 8, 8, 8, 8, 8, 8, 8, 8,
8, 8, 8, 8, 8, 8, 8, 8, 8, 8, 8, 8, 8, 8, 8, 8,
8, 8, 8, 8, 8, 8, 8, 8, 8, 8, 8, 8, 8, 8, 8, 8,
8, 8, 8, 8, 8, 8, 8, 8, 8, 8, 8, 8, 8, 8, 8, 8]

/-- Row "state c" of the `states` table of `src/unnamed/part_001`. -/
def dfaRowC : List Nat := [
8, 8, 8, 8, 8, 8, 8, 8, 8, 8, 8, 8, 8, 8, 8, 8,
8, 8, 8, 8, 8, 8, 8, 8, 8, 8, 8, 8, 8, 8, 8, 8,
8, 8, 8, 8, 8, 8, 8, 8, 8, 8, 8, 8, 8, 8, 8, 8,
8, 8, 8, 8, 8, 8, 8, 8, 8, 8, 8, 8, 8, 8, 8, 8,
8, 8, 8, 8, 8, 8, 8, 8, 8, 8, 8, 8, 8, 8, 8, 8,
8, 8, 8, 8, 8, 8, 8, 8, 8, 8, 8, 8, 8, 8, 8, 8,
8, 8, 8, 8, 8, 8, 8, 8, 8, 8, 8, 8, 8, 8, 8, 8,
8, 8, 8, 8, 8, 8, 8, 8, 8, 8, 8, 8, 8, 8, 8, 8,
8, 8, 8, 8, 8, 8, 8, 8, 8, 8, 8, 8, 8, 8, 8, 8,
8, 8, 8, 8, 8, 8, 8, 8, 8, 8, 8, 8, 8, 8, 8, 8,
1, 1, 1, 1, 1, 1, 1, 1, 1, 1, 1, 1, 1, 1, 1, 1,
1, 1, 1, 1, 1, 1, 1, 1, 1, 1, 1, 1, 1, 1, 1, 1,
8, 8, 8, 8, 8, 8, 8, 8, 8, 8, 8, 8, 8, 8, 8, 8,
8, 8, 8, 8, 8, 8, 8, 8, 8, 8, 8, 8, 8, 8, 8, 8,
8, 8, 8, 8, 8, 8, 8, 8, 8, 8, 8, 8, 8, 8, 8, 8,
8, 8, 8, 8, 8, 8, 8, 8, 8, 8, 8, 8, 8, 8, 8, 8]

/-- Row "state d" of the `states` table of `src/unnamed/part_001`. -/
def dfaRowD : List Nat := [
8, 8, 8, 8, 8, 8, 8, 8, 8, 8, 8, 8, 8, 8, 8, 8,
8, 8, 8, 8, 8, 8, 8, 8, 8, 8, 8, 8, 8, 8, 8, 8,
8, 8, 8, 8, 8, 8, 8, 8, 8, 8, 8, 8, 8, 8, 8, 8,
8, 8, 8, 8, 8, 8, 8, 8, 8, 8, 8, 8, 8, 8, 8, 8,
8, 8, 8, 8, 8, 8, 8, 8, 8, 8, 8, 8, 8, 8, 8, 8,
8, 8, 8, 8, 8, 8, 8, 8, 8, 8, 8, 8, 8, 8, 8, 8,
8, 8, 8, 8, 8, 8, 8, 8, 8, 8, 8, 8, 8, 8, 8, 8,
8, 8, 8, 8, 8, 8, 8, 8, 8, 8, 8, 8, 8, 8, 8, 8,
1, 1, 1, 1, 1, 1, 1, 1, 1, 1, 1, 1, 1, 1, 1, 1,
1, 1, 1, 1, 1, 1, 1, 1, 1, 1, 1, 1, 1, 1, 1, 1,
1, 1, 1, 1, 1, 1, 1, 1, 1, 1, 1, 1, 1, 1, 1, 1,
1, 1, 1, 1, 1, 1, 1, 1, 1, 1, 1, 1, 1, 1, 1, 1,
8, 8, 8, 8, 8, 8, 8, 8, 8, 8, 8, 8, 8, 8, 8, 8,
8, 8, 8, 8, 8, 8, 8, 8, 8, 8, 8, 8, 8, 8, 8, 8,
8, 8, 8, 8, 8, 8, 8, 8, 8, 8, 8, 8, 8, 8, 8, 8,
8, 8, 8, 8, 8, 8, 8, 8, 8, 8, 8, 8, 8, 8, 8, 8]

/-- Row "state e" of the `states` table of `src/unnamed/part_001`. -/
def dfaRowE : List Nat := [
8, 8, 8, 8, 8, 8, 8, 8, 8, 8, 8, 8, 8, 8, 8, 8,
8, 8, 8, 8, 8, 8, 8, 8, 8, 8, 8, 8, 8, 8, 8, 8,
8, 8, 8, 8, 8, 8, 8, 8, 8, 8, 8, 8, 8, 8, 8, 8,
8, 8, 8, 8, 8, 8, 8, 8, 8, 8, 8, 8, 8, 8, 8, 8,
8, 8, 8, 8, 8, 8, 8, 8, 8, 8, 8, 8, 8, 8, 8, 8,
8, 8, 8, 8, 8, 8, 8, 8, 8, 8, 8, 8, 8, 8, 8, 8,
8, 8, 8, 8, 8, 8, 8, 8, 8, 8, 8, 8, 8, 8, 8, 8,
8, 8, 8, 8, 8, 8, 8, 8, 8, 8, 8, 8, 8, 8, 8, 8,
1, 1, 1, 1, 1, 1, 1, 1, 1, 1, 1, 1, 1, 1, 1, 1,
1, 1, 1, 1, 1, 1, 1, 1, 1, 1, 1, 1, 1, 1, 1, 1,
8, 8, 8, 8, 8, 8, 8, 8, 8, 8, 8, 8, 8, 8, 8, 8,
8, 8, 8, 8, 8, 8, 8, 8, 8, 8, 8, 8, 8, 8, 8, 8,
8, 8, 8, 8, 8, 8, 8, 8, 8, 8, 8, 8, 8, 8, 8, 8,
8, 8, 8, 8, 8, 8, 8, 8, 8, 8, 8, 8, 8, 8, 8, 8,
8, 8, 8, 8, 8, 8, 8, 8, 8, 8, 8, 8, 8, 8, 8, 8,
8, 8, 8, 8, 8, 8, 8, 8, 8, 8, 8, 8, 8, 8, 8, 8]

/-- Row "state f" of the `states` table of `src/unnamed/part_001`. -/
def dfaRowF : List Nat := [
8, 8, 8, 8, 8, 8, 8, 8, 8, 8, 8, 8, 8, 8, 8, 8,
8, 8, 8, 8, 8, 8, 8, 8, 8, 8, 8, 8, 8, 8, 8, 8,
8, 8, 8, 8, 8, 8, 8, 8, 8, 8, 8, 8, 8, 8, 8, 8,
8, 8, 8, 8, 8, 8, 8, 8, 8, 8, 8, 8, 8, 8, 8, 8,
8, 8, 8, 8, 8, 8, 8, 8, 8, 8, 8, 8, 8, 8, 8, 8,
8, 8, 8, 8, 8, 8, 8, 8, 8, 8, 8, 8, 8, 8, 8, 8,
8, 8, 8, 8, 8, 8, 8, 8, 8, 8, 8, 8, 8, 8, 8, 8,
8, 8, 8, 8, 8, 8, 8, 8, 8, 8, 8, 8, 8, 8, 8, 8,
8, 8, 8, 8, 8, 8, 8, 8, 8, 8, 8, 8, 8, 8, 8, 8,
3, 3, 3, 3, 3, 3, 3, 3, 3, 3, 3, 3, 3, 3, 3, 3,
3, 3, 3, 3, 3, 3, 3, 3, 3, 3, 3, 3, 3, 3, 3, 3,
3, 3, 3, 3, 3, 3, 3, 3, 3, 3, 3, 3, 3, 3, 3, 3,
8, 8, 8, 8, 8, 8, 8, 8, 8, 8, 8, 8, 8, 8, 8, 8,
8, 8, 8, 8, 8, 8, 8, 8, 8, 8, 8, 8, 8, 8, 8, 8,
8, 8, 8, 8, 8, 8, 8, 8, 8, 8, 8, 8, 8, 8, 8, 8,
8, 8, 8, 8, 8, 8, 8, 8, 8, 8, 8, 8, 8, 8, 8, 8]

/-- Row "state g" of the `states` table of `src/unnamed/part_001`. -/
def dfaRowG : List Nat := [
8, 8, 8, 8, 8, 8, 8, 8, 8, 8, 8, 8, 8, 8, 8, 8,
8, 8, 8, 8, 8, 8, 8, 8, 8, 8, 8, 8, 8, 8, 8, 8,
8, 8, 8, 8, 8, 8, 8, 8, 8, 8, 8, 8, 8, 8, 8, 8,
8, 8, 8, 8, 8, 8, 8, 8, 8, 8, 8, 8, 8, 8, 8, 8,
8, 8, 8, 8, 8, 8, 8, 8, 8, 8, 8, 8, 8, 8, 8, 8,
8, 8, 8, 8, 8, 8, 8, 8, 8, 8, 8, 8, 8, 8, 8, 8,
8, 8, 8, 8, 8, 8, 8, 8, 8, 8, 8, 8, 8, 8, 8, 8,
8, 8, 8, 8, 8, 8, 8, 8, 8, 8, 8, 8, 8, 8, 8, 8,
3, 3, 3, 3, 3, 3, 3, 3, 3, 3, 3, 3, 3, 3, 3, 3,
3, 3, 3, 3, 3, 3, 3, 3, 3, 3, 3, 3, 3, 3, 3, 3,
3, 3, 3, 3, 3, 3, 3, 3, 3, 3, 3, 3, 3, 3, 3, 3,
3, 3, 3, 3, 3, 3, 3, 3, 3, 3, 3, 3, 3, 3, 3, 3,
8, 8, 8, 8, 8, 8, 8, 8, 8, 8, 8, 8, 8, 8, 8, 8,
8, 8, 8, 8, 8, 8, 8, 8, 8, 8, 8, 8, 8, 8, 8, 8,
8, 8, 8, 8, 8, 8, 8, 8, 8, 8, 8, 8, 8, 8, 8, 8,
8, 8, 8, 8, 8, 8, 8, 8, 8, 8, 8, 8, 8, 8, 8, 8]

/-- Row "state h" of the `states` table of `src/unnamed/part_001`. -/
def dfaRowH : List Nat := [
8, 8, 8, 8, 8, 8, 8, 8, 8, 8, 8, 8, 8, 8, 8, 8,
8, 8, 8, 8, 8, 8, 8, 8, 8, 8, 8, 8, 8, 8, 8, 8,
8, 8, 8, 8, 8, 8, 8, 8, 8, 8, 8, 8, 8, 8, 8, 8,
8, 8, 8, 8, 8, 8, 8, 8, 8, 8, 8, 8, 8, 8, 8, 8,
8, 8, 8, 8, 8, 8, 8, 8, 8, 8, 8, 8, 8, 8, 8, 8,
8, 8, 8, 8, 8, 8, 8, 8, 8, 8, 8, 8, 8, 8, 8, 8,
8, 8, 8, 8, 8, 8, 8, 8, 8, 8, 8, 8, 8, 8, 8, 8,
8, 8, 8, 8, 8, 8, 8, 8, 8, 8, 8, 8, 8, 8, 8, 8,
3, 3, 3, 3, 3, 3, 3, 3, 3, 3, 3, 3, 3, 3, 3, 3,
8, 8, 8, 8, 8, 8, 8, 8, 8, 8, 8, 8, 8, 8, 8, 8,
8, 8, 8, 8, 8, 8, 8, 8, 8, 8, 8, 8, 8, 8, 8, 8,
8, 8, 8, 8, 8, 8, 8, 8, 8, 8, 8, 8, 8, 8, 8, 8,
8, 8, 8, 8, 8, 8, 8, 8, 8, 8, 8, 8, 8, 8, 8, 8,
8, 8, 8, 8, 8, 8, 8, 8, 8, 8, 8, 8, 8, 8, 8, 8,
8, 8, 8, 8, 8, 8, 8, 8, 8, 8, 8, 8, 8, 8, 8, 8,
8, 8, 8, 8, 8, 8, 8, 8, 8, 8, 8, 8, 8, 8, 8, 8]

/-- The 2048-entry transition table `states` of `src/unnamed/part_001`
(lines 275-404): the eight 256-byte state rows `a`..`h` in order, entries
are the state constants `a`..`x` mapped to `0`..`8`.  The concatenation is
written right-associated so that each lookup proof peels one 256-entry row
at a time. -/
def dfaStates : List Nat :=
dfaRowA ++ (dfaRowB ++ (dfaRowC ++ (dfaRowD ++ (dfaRowE ++ (dfaRowF ++ (dfaRowG ++ dfaRowH))))))

/-- Continuation of the DFA loop of `src/unnamed/part_001` after `state`
has become `undefined`: `state === a` is false, `state * stateSize + byte`
is `NaN`, `states[NaN]` is `undefined` and `undefined === x` is false, so
the loop only keeps applying the invalid-byte check and the final
`state !== a` comparison yields `false`. -/
def dfaGoUndef : List Nat → Bool
| [] => false
| byte :: rest =>
  if byte == 0xC0 || byte == 0xC1 || decide (0xF4 < byte) then false
  else dfaGoUndef rest

/-- The byte-by-byte table-driven DFA validator, `module.exports` of
`src/unnamed/part_001` (lines 406-449), on the remaining bytes with the
current `state`.  The table lookup `states[(state * stateSize) + byte]` is
modelled by `List.getElem?`; an out-of-table read yields `undefined`
(`none`), in which case execution continues with `state = undefined`
(`dfaGoUndef`), exactly as in JavaScript. -/
def dfaGo : List Nat → Nat → Bool
| [], state => state == 0
| byte :: rest, state =>
  if state == 0 && decide (byte < 0x80) then dfaGo rest state
  else if byte == 0xC0 || byte == 0xC1 || decide (0xF4 < byte) then false
  else
    match dfaStates[(state * stateSize) + byte]? with
    | none => dfaGoUndef rest
    | some t => if t == 8 then false else dfaGo rest t

/-- Entry point of the DFA validator: `index = 0`, `state = a`. -/
def dfaValidate (b : List Nat) : Bool := dfaGo b 0

/-- Instrumented copy of `dfaGo` that faults (returns `none`) the moment a
transition lookup falls outside the 2048-entry `states` table, and otherwise
returns the DFA's answer. -/
def dfaGoSafe : List Nat → Nat → Option Bool
| [], state => some (state == 0)
| byte :: rest, state =>
  if state == 0 && decide (byte < 0x80) then dfaGoSafe rest state
  else if byte == 0xC0 || byte == 0xC1 || decide (0xF4 < byte) then some false
  else
    match dfaStates[(state * stateSize) + byte]? with
    | none => none
    | some t => if t == 8 then some false else dfaGoSafe rest t

set_option maxRecDepth 2000 in
theorem dfaRowA_length : dfaRowA.length = 256 := by decide

set_option maxRecDepth 2000 in
theorem dfaRowB_length : dfaRowB.length = 256 := by decide

set_option maxRecDepth 2000 in
theorem dfaRowC_length : dfaRowC.length = 256 := by decide

set_option maxRecDepth 2000 in
theorem dfaRowD_length : dfaRowD.length = 256 := by decide

set_option maxRecDepth 2000 in
theorem dfaRowE_length : dfaRowE.length = 256 := by decide

set_option maxRecDepth 2000 in
theorem dfaRowF_length : dfaRowF.length = 256 := by decide

set_option maxRecDepth 2000 in
theorem dfaRowG_length : dfaRowG.length = 256 := by decide

set_option maxRecDepth 2000 in
theorem dfaRowH_length : dfaRowH.length = 256 := by decide

theorem dfaStates_length : dfaStates.length = 2048 := by
  rw [dfaStates]
  simp only [List.length_append, dfaRowA_length, dfaRowB_length, dfaRowC_length,
  dfaRowD_length, dfaRowE_length, dfaRowF_length, dfaRowG_length, dfaRowH_length]

set_option maxRecDepth 2000 in
theorem dfaRowA_le : ∀ t ∈ dfaRowA, t ≤ 8 := by decide

set_option maxRecDepth 2000 in
theorem dfaRowB_le : ∀ t ∈ dfaRowB, t ≤ 8 := by decide

set_option maxRecDepth 2000 in
theorem dfaRowC_le : ∀ t ∈ dfaRowC, t ≤ 8 := by decide

set_option maxRecDepth 2000 in
theorem dfaRowD_le : ∀ t ∈ dfaRowD, t ≤ 8 := by decide

set_option maxRecDepth 2000 in
theorem dfaRowE_le : ∀ t ∈ dfaRowE, t ≤ 8 := by decide

set_option maxRecDepth 2000 in
theorem dfaRowF_le : ∀ t ∈ dfaRowF, t ≤ 8 := by decide

set_option maxRecDepth 2000 in
theorem dfaRowG_le : ∀ t ∈ dfaRowG, t ≤ 8 := by decide

set_option maxRecDepth 2000 in
theorem dfaRowH_le : ∀ t ∈ dfaRowH, t ≤ 8 := by decide

/-- Every entry of the transition table is one of the state constants
`0`..`8`. -/
theorem dfaStates_le : ∀ t ∈ dfaStates, t ≤ 8 := by
  intro t ht
  rw [dfaStates] at ht
  simp only [List.mem_append] at ht
  rcases ht with h | h | h | h | h | h | h | h
  · exact dfaRowA_le t h
  · exact dfaRowB_le t h
  · exact dfaRowC_le t h
  · exact dfaRowD_le t h
  · exact dfaRowE_le t h
  · exact dfaRowF_le t h
  · exact dfaRowG_le t h
  · exact dfaRowH_le t h

set_option maxRecDepth 2000 in
theorem dfaStates_get194 : dfaStates[194]? = some 1 := by
  rw [dfaStates, List.getElem?_append, if_pos (by rw [dfaRowA_length]; omega)]
  decide

set_option maxRecDepth 2000 in
theorem dfaStates_get384 : dfaStates[384]? = some 0 := by
  rw [dfaStates, List.getElem?_append, if_neg (by rw [dfaRowA_length]; omega), dfaRowA_length]
  rw [List.getElem?_append, if_pos (by rw [dfaRowB_length]; omega)]
  decide

set_option maxRecDepth 2000 in
theorem dfaStates_get128 : dfaStates[128]? = some 8 := by
  rw [dfaStates, List.getElem?_append, if_pos (by rw [dfaRowA_length]; omega)]
  decide

set_option maxRecDepth 100000 in
/-- Unfolding of a DFA iteration that neither takes the ASCII shortcut nor
rejects the byte outright, and whose table lookup returns a non-invalid
state `t`: the loop continues in state `t`. -/
theorem dfaGo_cons_next (byte : Nat) (rest : List Nat) (state idx t : Nat)
    (h1 : (state == 0 && decide (byte < 0x80)) = false)
    (h2 : (byte == 0xC0 || byte == 0xC1 || decide (0xF4 < byte)) = false)
    (hidx : state * stateSize + byte = idx)
    (h3 : dfaStates[idx]? = some t)
    (h4 : (t == 8) = false) :
    dfaGo (byte :: rest) state = dfaGo rest t := by
  rw [dfaGo]
  rw [if_neg (by simp [h1]), if_neg (by simp [h2]), hidx, h3]
  simp only [h4, Bool.false_eq_true, if_false]

set_option maxRecDepth 100000 in
/-- Unfolding of a DFA iteration whose table lookup returns the invalid
state `x = 8`: the validator rejects. -/
theorem dfaGo_cons_x (byte : Nat) (rest : List Nat) (state idx t : Nat)
    (h1 : (state == 0 && decide (byte < 0x80)) = false)
    (h2 : (byte == 0xC0 || byte == 0xC1 || decide (0xF4 < byte)) = false)
    (hidx : state * stateSize + byte = idx)
    (h3 : dfaStates[idx]? = some t)
    (h4 : (t == 8) = true) :
    dfaGo (byte :: rest) state = false := by
  rw [dfaGo]
  rw [if_neg (by simp [h1]), if_neg (by simp [h2]), hidx, h3]
  simp only [h4, if_true]

/-- Modelled from the spec: a continuation byte is in `0x80..0xBF`
(spec section 3, "Byte Class", and the glossary). -/
def isCont (v : Nat) : Bool := decide (0x80 ≤ v) && decide (v ≤ 0xBF)

/-- Modelled from the spec: the RFC 3629 well-formed UTF-8 byte sequences
(spec sections 1, 3 and 4.2) — ASCII `00..7F`; two-byte lead `C2..DF` plus
one continuation; three-byte leads `E0` (second byte `A0..BF`), `E1..EC`
and `EE..EF` (plain continuations), `ED` (second byte `80..9F`, excluding
surrogates); four-byte leads `F0` (second byte `90..BF`), `F1..F3` (plain
continuations), `F4` (second byte `80..8F`, capping at U+10FFFF); anything
else, and any truncated multi-byte sequence, is invalid. -/
def specUtf8 : List Nat → Bool
| [] => true
| v :: rest =>
  if v ≤ 0x7F then specUtf8 rest
  else if 0xC2 ≤ v ∧ v ≤ 0xDF then
    match rest with
    | c1 :: r => isCont c1 && specUtf8 r
    | [] => false
  else if v = 0xE0 then
    match rest with
    | c1 :: c2 :: r => decide (0xA0 ≤ c1) && decide (c1 ≤ 0xBF) && isCont c2 && specUtf8 r
    | _ => false
  else if (0xE1 ≤ v ∧ v ≤ 0xEC) ∨ v = 0xEE ∨ v = 0xEF then
    match rest with
    | c1 :: c2 :: r => isCont c1 && isCont c2 && specUtf8 r
    | _ => false
  else if v = 0xED then
    match rest with
    | c1 :: c2 :: r => decide (0x80 ≤ c1) && decide (c1 ≤ 0x9F) && isCont c2 && specUtf8 r
    | _ => false
  else if v = 0xF0 then
    match rest with
    | c1 :: c2 :: c3 :: r =>
      decide (0x90 ≤ c1) && decide (c1 ≤ 0xBF) && isCont c2 && isCont c3 && specUtf8 r
    | _ => false
  else if 0xF1 ≤ v ∧ v ≤ 0xF3 then
    match rest with
    | c1 :: c2 :: c3 :: r => isCont c1 && isCont c2 && isCont c3 && specUtf8 r
    | _ => false
  else if v = 0xF4 then
    match rest with
    | c1 :: c2 :: c3 :: r =>
      decide (0x80 ≤ c1) && decide (c1 ≤ 0x8F) && isCont c2 && isCont c3 && specUtf8 r
    | _ => false
  else false

/-- `eb` accepts exactly the bytes `0x80..0x9F`: true on that range. -/
theorem eb_in_range (v : Nat) (h1 : 0x80 ≤ v) (h2 : v ≤ 0x9F) : eb (some v) = true := by
  interval_cases v <;> decide

/-- `eb` rejects the surrogate-introducing range `0xA0..0xBF`. -/
theorem eb_above_range (v : Nat) (h1 : 0xA0 ≤ v) (h2 : v ≤ 0xBF) : eb (some v) = false := by
  interval_cases v <;> decide

/-- `ba` accepts every continuation byte `0x80..0xBF`. -/
theorem ba_in_range (v : Nat) (h1 : 0x80 ≤ v) (h2 : v ≤ 0xBF) : ba (some v) = true := by
  interval_cases v <;> decide

/-- A bitwise OR below a power of two forces its left operand below it. -/
theorem or_lt_two_pow_left (x y n : Nat) (h : x ||| y < 2 ^ n) : x < 2 ^ n := by
  by_contra hx
  push_neg at hx
  obtain ⟨i, hi, hb⟩ := Nat.ge_two_pow_implies_high_bit_true hx
  have hor : (x ||| y).testBit i = true := by
    rw [Nat.testBit_or, hb]
    rfl
  have hge := Nat.testBit_implies_ge hor
  have hpow : (2 : Nat) ^ n ≤ 2 ^ i := Nat.pow_le_pow_right (by omega) hi
  omega

/-- A bitwise OR below a power of two forces its right operand below it. -/
theorem or_lt_two_pow_right (x y n : Nat) (h : x ||| y < 2 ^ n) : y < 2 ^ n := by
  rw [Nat.or_comm] at h
  exact or_lt_two_pow_left y x n h

set_option maxRecDepth 100000 in
/-- The instrumented DFA run never faults: started in a live state `s < 8`
on bytes `0..255`, every transition lookup is inside the table and the run
returns exactly the validator answer. -/
theorem dfaGoSafe_sound : ∀ (b : List Nat) (s : Nat), (∀ v ∈ b, v < 256) → s < 8 →
    dfaGoSafe b s = some (dfaGo b s) := by
  intro b
  induction b with
  | nil =>
    intro s _ _
    rfl
  | cons byte rest ih =>
    intro s hb hs
    have hbyte : byte < 256 := hb byte (List.mem_cons_self _ _)
    have hrest : ∀ v ∈ rest, v < 256 := fun v hv => hb v (List.mem_cons_of_mem _ hv)
    rw [dfaGo, dfaGoSafe]
    by_cases h1 : (s == 0 && decide (byte < 0x80)) = true
    · rw [if_pos h1, if_pos h1]
      exact ih s hrest hs
    · rw [if_neg h1, if_neg h1]
      by_cases h2 : (byte == 0xC0 || byte == 0xC1 || decide (0xF4 < byte)) = true
      · rw [if_pos h2, if_pos h2]
      · rw [if_neg h2, if_neg h2]
        have hidx : s * stateSize + byte < dfaStates.length := by
          rw [dfaStates_length, stateSize]
          omega
        have hlook : dfaStates[s * stateSize + byte]? =
            some (dfaStates[s * stateSize + byte]) := List.getElem?_eq_getElem hidx
        simp only [hlook]
        have ht8 : dfaStates[s * stateSize + byte] ≤ 8 :=
          dfaStates_le _ (List.getElem_mem _)
        by_cases h4 : (dfaStates[s * stateSize + byte] == 8) = true
        · rw [if_pos h4, if_pos h4]
        · rw [if_neg h4, if_neg h4]
          have ht : dfaStates[s * stateSize + byte] < 8 := by
            have hne : dfaStates[s * stateSize + byte] ≠ 8 := by
              intro hcontra
              exact h4 (by rw [hcontra]; rfl)
            omega
          exact ih _ hrest ht

/-- Claim C1: `validate` is claimed to return true iff the bytes in
`[start, end)` are complete valid RFC 3629 UTF-8.  The code violates this:
the `abo` repeated-two-byte acceleration checks `ab(b[i] | b[i+2])` and
`ba(b[i+1] | b[i+3])`, but a bitwise OR can mask an invalid byte
(`0xC2 | 0x80 = 0xC2`), so on `[C2 80 C2 80 C2 80 80 80]` the exported
validator answers `true` although bytes 6 and 7 are bare continuation
bytes and the buffer is not valid UTF-8. -/
theorem claim_C1_code_bug :
    validate [0xC2, 0x80, 0xC2, 0x80, 0xC2, 0x80, 0x80, 0x80] 0 8 = true ∧
    specUtf8 [0xC2, 0x80, 0xC2, 0x80, 0xC2, 0x80, 0x80, 0x80] = false := by
  constructor
  · have hl : aboLoop [0xC2, 0x80, 0xC2, 0x80, 0xC2, 0x80, 0x80, 0x80] 5 4 = 8 := by
      rw [aboLoop, accelLoop, if_pos (by decide), if_pos (by decide), accelLoop,
        if_neg (by decide)]
    have hs : step [0xC2, 0x80, 0xC2, 0x80, 0xC2, 0x80, 0x80, 0x80] 5 0 = some 8 := by
      rw [← hl]
      simp +decide [step, aa, ab, ba, bget, ac, ad, ae, af, ag, ah]
    rw [validate, scanGo_step _ 8 0 8 (by decide) hs, scanGo_done _ 8 8 (by decide) (by decide)]
  · decide

/-- Claim C2: the accelerated scan-loop validator is claimed to agree with
the byte-by-byte table-driven DFA reference validator on every buffer.  The
code violates this: on `[C2 80 C2 80 C2 80 80 80]` the accelerated exported
validator answers `true` (the unsound `abo` OR-trick) while the DFA
reference of `src/unnamed/part_001` rejects at the bare continuation byte. -/
theorem claim_C2_code_bug :
    validate [0xC2, 0x80, 0xC2, 0x80, 0xC2, 0x80, 0x80, 0x80] 0 8 = true ∧
    dfaValidate [0xC2, 0x80, 0xC2, 0x80, 0xC2, 0x80, 0x80, 0x80] = false := by
  constructor
  · have hl : aboLoop [0xC2, 0x80, 0xC2, 0x80, 0xC2, 0x80, 0x80, 0x80] 5 4 = 8 := by
      rw [aboLoop, accelLoop, if_pos (by decide), if_pos (by decide), accelLoop,
        if_neg (by decide)]
    have hs : step [0xC2, 0x80, 0xC2, 0x80, 0xC2, 0x80, 0x80, 0x80] 5 0 = some 8 := by
      rw [← hl]
      simp +decide [step, aa, ab, ba, bget, ac, ad, ae, af, ag, ah]
    rw [validate, scanGo_step _ 8 0 8 (by decide) hs, scanGo_done _ 8 8 (by decide) (by decide)]
  · rw [dfaValidate,
      dfaGo_cons_next 0xC2 [0x80, 0xC2, 0x80, 0xC2, 0x80, 0x80, 0x80] 0 194 1
        (by decide) (by decide) (by decide) dfaStates_get194 (by decide),
      dfaGo_cons_next 0x80 [0xC2, 0x80, 0xC2, 0x80, 0x80, 0x80] 1 384 0
        (by decide) (by decide) (by decide) dfaStates_get384 (by decide),
      dfaGo_cons_next 0xC2 [0x80, 0xC2, 0x80, 0x80, 0x80] 0 194 1
        (by decide) (by decide) (by decide) dfaStates_get194 (by decide),
      dfaGo_cons_next 0x80 [0xC2, 0x80, 0x80, 0x80] 1 384 0
        (by decide) (by decide) (by decide) dfaStates_get384 (by decide),
      dfaGo_cons_next 0xC2 [0x80, 0x80, 0x80] 0 194 1
        (by decide) (by decide) (by decide) dfaStates_get194 (by decide),
      dfaGo_cons_next 0x80 [0x80, 0x80] 1 384 0
        (by decide) (by decide) (by decide) dfaStates_get384 (by decide),
      dfaGo_cons_x 0x80 [0x80] 0 128 8
        (by decide) (by decide) (by decide) dfaStates_get128 (by decide)]

/-- Claim C3: any window containing a byte `0xC0`, `0xC1` or `0xF5..0xFF` is
claimed to be rejected.  The code violates this: the unsound `abo` OR-trick
(`0xC2 | 0xC0 = 0xC2`, `0x00 | 0x80 = 0x80`) lets the byte `0xC0` at index 6
slip through, and the validator answers `true` on
`[C2 80 C2 80 C2 00 C0 80]`. -/
theorem claim_C3_code_bug :
    validate [0xC2, 0x80, 0xC2, 0x80, 0xC2, 0x00, 0xC0, 0x80] 0 8 = true ∧
    bget [0xC2, 0x80, 0xC2, 0x80, 0xC2, 0x00, 0xC0, 0x80] 6 = some 0xC0 := by
  constructor
  · have hl : aboLoop [0xC2, 0x80, 0xC2, 0x80, 0xC2, 0x00, 0xC0, 0x80] 5 4 = 8 := by
      rw [aboLoop, accelLoop, if_pos (by decide), if_pos (by decide), accelLoop,
        if_neg (by decide)]
    have hs : step [0xC2, 0x80, 0xC2, 0x80, 0xC2, 0x00, 0xC0, 0x80] 5 0 = some 8 := by
      rw [← hl]
      simp +decide [step, aa, ab, ba, bget, ac, ad, ae, af, ag, ah]
    rw [validate, scanGo_step _ 8 0 8 (by decide) hs, scanGo_done _ 8 8 (by decide) (by decide)]
  · rfl

/-- Claim C4 counterexample: on the precondition-violating call
`validate([], 1, 0)` (inverted range, start beyond the buffer) the
implementation does not raise or return an error value: it silently returns
the ordinary boolean `true`. -/
theorem claim_C4_counterexample : validate [] 1 0 = true := by
  rw [validate, scanGo_done _ 0 1 (by decide) (by decide)]

/-- Claim C4 (amended): precondition violations on `start`/`end` are not
detected: the implementation always returns an ordinary boolean, and
whenever `end ≤ start` (including every inverted range) both loops are
skipped and the call returns `true`. -/
theorem claim_C4_amended (b : List Nat) (s e : Nat) (h : e ≤ s) :
    validate b s e = true := by
  rw [validate, scanGo_done b e s (by omega) (by omega)]

theorem claim_C4_witness : (0 : Nat) ≤ 1 ∧ validate [0x41, 0x42] 1 0 = true :=
  ⟨by decide, claim_C4_amended [0x41, 0x42] 1 0 (by decide)⟩

/-- Claim C5: noninterference of the window: if two buffers satisfy the
precondition and agree on every byte read inside `[start, end)`, the
validator returns the same boolean on both; bytes outside the window never
influence the result. -/
theorem claim_C5 (b1 b2 : List Nat) (s e : Nat) (h1 : s ≤ e) (h2 : e ≤ b1.length)
    (h3 : e ≤ b2.length) (hag : ∀ m, s ≤ m → m < e → bget b1 m = bget b2 m) :
    validate b1 s e = validate b2 s e :=
  scanGo_congr b1 b2 e s hag

theorem claim_C5_witness :
    validate [0x41, 0x00] 0 1 = validate [0x41, 0xFF] 0 1 :=
  claim_C5 [0x41, 0x00] [0x41, 0xFF] 0 1 (by decide) (by decide) (by decide)
    (by
      intro m hm1 hm2
      have hm : m = 0 := by omega
      subst hm
      rfl)




/-- Every natural-number bitwise OR is below `128` exactly when both
operands are. -/
theorem or_lt_128_iff (x y : Nat) : (x ||| y < 128) ↔ (x < 128 ∧ y < 128) := by
  have h7 : (128 : Nat) = 2 ^ 7 := by norm_num
  rw [h7]
  constructor
  · intro h
    exact ⟨or_lt_two_pow_left x y 7 h, or_lt_two_pow_right x y 7 h⟩
  · intro h
    exact Nat.or_lt_two_pow h.1 h.2

/-- Claim C6: a lead byte `0xED` followed by a second byte in `0xA0..0xBF`
and a continuation byte is rejected (encoded UTF-16 surrogate halves
U+D800..U+DFFF), in particular `[ED A0 80]`; an `0xED` lead followed by a
second byte in `0x80..0x9F` and a continuation byte is accepted. -/
theorem claim_C6 (b2 b3 : Nat) :
    (0xA0 ≤ b2 → b2 ≤ 0xBF → 0x80 ≤ b3 → b3 ≤ 0xBF →
      validate [0xED, b2, b3] 0 3 = false) ∧
    validate [0xED, 0xA0, 0x80] 0 3 = false ∧
    (0x80 ≤ b2 → b2 ≤ 0x9F → 0x80 ≤ b3 → b3 ≤ 0xBF →
      validate [0xED, b2, b3] 0 3 = true) := by
  have g0 : bget [0xED, b2, b3] 0 = some 0xED := rfl
  have g1 : bget [0xED, b2, b3] 1 = some b2 := rfl
  have g2 : bget [0xED, b2, b3] 2 = some b3 := rfl
  refine ⟨fun ha1 ha2 hb1 hb2 => ?_, ?_, fun ha1 ha2 hb1 hb2 => ?_⟩
  · rw [validate, scanGo_tail _ 3 0 (by decide) (by decide)]
    rw [vt, if_neg (by decide), if_neg (by decide), g0]
    rw [if_neg (by decide), if_neg (by decide), if_neg (by decide), if_neg (by decide)]
    simp [aea, ea, ae, g0, g1, g2, eb_above_range b2 ha1 ha2]
  · rw [validate, scanGo_tail _ 3 0 (by decide) (by decide)]
    decide
  · rw [validate, scanGo_tail _ 3 0 (by decide) (by decide)]
    rw [vt, if_neg (by decide), if_neg (by decide), g0]
    rw [if_neg (by decide), if_neg (by decide), if_neg (by decide), if_neg (by decide)]
    simp [aea, ea, ae, g0, g1, g2, eb_in_range b2 ha1 ha2, ba_in_range b3 hb1 hb2]

theorem claim_C6_witness :
    validate [0xED, 0xA0, 0x81] 0 3 = false ∧ validate [0xED, 0x80, 0x80] 0 3 = true :=
  ⟨(claim_C6 0xA0 0x81).1 (by decide) (by decide) (by decide) (by decide),
   (claim_C6 0x80 0x80).2.2 (by decide) (by decide) (by decide) (by decide)⟩

/-- Claim C7: the batched ASCII test `aa(b0 | b1 | b2 | b3)` used by `aao`
is exactly the conjunction of the four per-byte ASCII checks: it is true
iff each of the four bytes is below `0x80`. -/
theorem claim_C7 (b0 b1 b2 b3 : Nat) (h0 : b0 < 256) (h1 : b1 < 256)
    (h2 : b2 < 256) (h3 : b3 < 256) :
    aao [b0, b1, b2, b3] 0 = (aa (some b0) && aa (some b1) && aa (some b2) && aa (some b3)) ∧
    (aa (bor (bor (bor (some b0) (some b1)) (some b2)) (some b3)) = true ↔
      (b0 < 0x80 ∧ b1 < 0x80 ∧ b2 < 0x80 ∧ b3 < 0x80)) := by
  have g0 : bget [b0, b1, b2, b3] 0 = some b0 := rfl
  have g1 : bget [b0, b1, b2, b3] 1 = some b1 := rfl
  have g2 : bget [b0, b1, b2, b3] 2 = some b2 := rfl
  have g3 : bget [b0, b1, b2, b3] 3 = some b3 := rfl
  constructor
  · simp only [aao, g0, g1, g2, g3, bor, Option.getD_some, aa]
    rw [Bool.eq_iff_iff]
    simp only [decide_eq_true_iff, Bool.and_eq_true, or_lt_128_iff]
    try tauto
  · simp only [bor, Option.getD_some, aa]
    simp only [decide_eq_true_iff, or_lt_128_iff]
    try tauto

theorem claim_C7_witness :
    (aao [0x41, 0x42, 0x43, 0x7F] 0 =
      (aa (some 0x41) && aa (some 0x42) && aa (some 0x43) && aa (some 0x7F))) ∧
    (aa (bor (bor (bor (some 0x41) (some 0x42)) (some 0x43)) (some 0x7F)) = true ↔
      (0x41 < 0x80 ∧ 0x42 < 0x80 ∧ 0x43 < 0x80 ∧ 0x7F < 0x80)) :=
  claim_C7 0x41 0x42 0x43 0x7F (by decide) (by decide) (by decide) (by decide)

/-- The observable effect of one call to the exported validator: the boolean
result together with the buffer after the call.  The source never assigns to
`buffer` and keeps no mutable module state, so the buffer after the call is
the buffer passed in. -/
def validateCall (b : List Nat) (s e : Nat) : Bool × List Nat := (scanGo b e s, b)

/-- Claim C8: `validate` is pure and deterministic: a call leaves the buffer
unchanged, and a second call on the buffer left behind by the first returns
the same boolean.  In this embedding the absence of writes is faithful to
the source (which contains no assignment to the buffer), so both facts are
definitional. -/
theorem claim_C8 (b : List Nat) (s e : Nat) :
    (validateCall b s e).2 = b ∧
    (validateCall (validateCall b s e).2 s e).1 = (validateCall b s e).1 ∧
    (validateCall b s e).1 = validate b s e :=
  ⟨rfl, rfl, rfl⟩

/-- Claim C9: termination and cursor discipline of the scan loop: every
iteration of the main loop taken at `i < end - 3` either returns
(`step = none`) or strictly increases the cursor, and the resumed cursor
never exceeds `end`; and every firing iteration of a nested acceleration
loop advances the cursor by exactly its stride `k + 1 ∈ {3, 4}`.  This is
what makes the whole call a total function with work bounded by the window
length (the Lean embedding `validate` is total by exactly this measure). -/
theorem claim_C9 (b : List Nat) (e i j : Nat) (hi : i < e - 3)
    (hs : step b (e - 3) i = some j) :
    (i < j ∧ j ≤ e) ∧
    (∀ (q : Nat → Bool) (k st m : Nat), m < st → q m = true →
      accelLoop q k st m = accelLoop q k st (m + (k + 1))) := by
  constructor
  · refine ⟨step_lt b (e - 3) i j hs, ?_⟩
    have := step_le b (e - 3) i j hi hs
    omega
  · intro q k st m h1 h2
    conv_lhs => rw [accelLoop]
    rw [if_pos h1, if_pos h2]

theorem claim_C9_witness :
    ((0 : Nat) < 4 ∧ (4 : Nat) ≤ 8) ∧
    (∀ (q : Nat → Bool) (k st m : Nat), m < st → q m = true →
      accelLoop q k st m = accelLoop q k st (m + (k + 1))) :=
  claim_C9 [0xC2, 0x80, 0x61, 0x62, 0x63, 0x64, 0x65, 0x66] 8 0 4 (by decide) (by decide)

/-- Claim C10: in the table-driven DFA validator the state is an element of
`{0..7}` at every evaluation of `states[(state * stateSize) + byte]`, so for
byte values `0..255` every lookup index is at most `2047` and falls inside
the 2048-entry table: the instrumented run `dfaGoSafe`, which faults on any
out-of-table lookup, never faults and returns exactly the validator
answer. -/
theorem claim_C10 (b : List Nat) (hb : ∀ v ∈ b, v < 256) :
    dfaGoSafe b 0 = some (dfaValidate b) := by
  rw [dfaValidate]
  exact dfaGoSafe_sound b 0 hb (by omega)

theorem claim_C10_witness :
    dfaGoSafe [0xE0, 0xA0, 0x80] 0 = some (dfaValidate [0xE0, 0xA0, 0x80]) :=
  claim_C10 [0xE0, 0xA0, 0x80] (by decide)



end UV
